import Mathlib

/-!
Shallow embedding of the Subscription & Billing Reconciliation Engine of the
rental-management backend (TypeScript/Mongoose), covering:

* `subscriptionTypeService` (plan catalog + in-memory plan-limits cache),
  from `src/modules/subscription_type` (model + service);
* `organizationService` quota operations (seat / catalog-item counters),
  from `src/modules/organization/organization.service.ts`;
* `billingService.handleWebhookEvent` and its type-specific handlers,
  from `src/modules/billing/billing.service.ts`;
* `authService.isActiveOrganization` from `src/modules/auth/auth.service.ts`.

Modelling conventions:
* MongoDB collections are Lean lists of documents; `updateOne` /
  `findOneAndUpdate` update the first matching document (at most one
  matches in practice because the queried keys carry unique indexes).
* Timestamps (`Date.now()`, `Date` values) are integers (milliseconds).
* `async`/`await` sequencing becomes explicit state passing; a function
  that can `throw AppError` returns `Except AppError _` together with the
  updated state (partial effects before the throw are kept, as in the
  source, where awaited writes persist even if a later step throws).
* JavaScript `Map` built by inserting unique keys is an association list
  looked up by first match (the `plan` key has a unique index, so
  first-match and last-write-wins coincide).
* JS `string.toLowerCase()` is modelled by `lowerStr` (ASCII case fold,
  which is exact for the plan keys this system uses).
-/

/- ### Errors (`src/utils/types/AppError.ts`) -/

/-- Details object attached to quota errors:
`{ code: "PLAN_LIMIT_REACHED", resource: "seats" | "catalog_items" }`. -/
structure ErrDetails where
  code : String
  resource : String
deriving DecidableEq, Repr

/-- The `AppError` class: message, HTTP status code, machine code, optional
details object. -/
structure AppError where
  message : String
  statusCode : Nat
  code : String
  details : Option ErrDetails := none
deriving DecidableEq, Repr

/-- Factory `AppError.badRequest` (statusCode 400, code "BAD_REQUEST"). -/
def AppError.badRequest (message : String) (details : Option ErrDetails := none) : AppError :=
  { message := message, statusCode := 400, code := "BAD_REQUEST", details := details }

/-- Factory `AppError.unauthorized` (statusCode 401, code "UNAUTHORIZED"). -/
def AppError.unauthorized (message : String) : AppError :=
  { message := message, statusCode := 401, code := "UNAUTHORIZED" }

/-- Factory `AppError.notFound` (statusCode 404, code "NOT_FOUND"). -/
def AppError.notFound (message : String) : AppError :=
  { message := message, statusCode := 404, code := "NOT_FOUND" }

/-- Factory `AppError.conflict` (statusCode 409, code "CONFLICT"). -/
def AppError.conflict (message : String) : AppError :=
  { message := message, statusCode := 409, code := "CONFLICT" }

/-- Extracts the error of an `Except` result, if any. -/
def resultErr {α : Type} : Except AppError α → Option AppError
  | .error e => some e
  | .ok _ => none

/-- The machine-readable `code` of a failed result. -/
def resultErrCode {α : Type} (r : Except AppError α) : Option String :=
  (resultErr r).map (·.code)

/-- The `details` object of a failed result. -/
def resultErrDetails {α : Type} (r : Except AppError α) : Option ErrDetails :=
  (resultErr r).bind (·.details)

/-- Extracts the value of a successful result, if any. -/
def resultVal {α : Type} : Except AppError α → Option α
  | .ok v => some v
  | .error _ => none

/- ### Generic list helpers (Mongo `updateOne` semantics) -/

/-- Applies `f` to the first element satisfying `p`, leaving the rest
unchanged (Mongo `updateOne`: at most one document is modified). -/
def setFirst {α : Type} (p : α → Bool) (f : α → α) : List α → List α
  | [] => []
  | x :: xs => if p x then f x :: xs else x :: setFirst p f xs

/-- ASCII lowercase of a string, modelling JS `toLowerCase()` on the
alphanumeric-plus-underscore plan keys used by this system. -/
def lowerStr (s : String) : String :=
  String.mk (s.data.map Char.toLower)

/- ### Plan catalog documents (`subscription_type.model.ts`) -/

/-- The `billingModel` enum: `"fixed" | "dynamic"`. -/
inductive BillingModel
  | fixed
  | dynamic
deriving DecidableEq, Repr

/-- The subscription-type `status` enum: `"active" | "inactive" | "deprecated"`. -/
inductive SubTypeStatus
  | active
  | inactive
  | deprecated
deriving DecidableEq, Repr

/-- A `SubscriptionType` document (one plan definition). -/
structure SubscriptionTypeDoc where
  plan : String
  displayName : String
  description : Option String := none
  billingModel : BillingModel
  baseCost : Int
  pricePerSeat : Int
  maxSeats : Int := -1
  maxCatalogItems : Int := -1
  features : List String := []
  sortOrder : Int := 0
  stripePriceIdBase : Option String := none
  stripePriceIdSeat : Option String := none
  status : SubTypeStatus := .active
deriving DecidableEq, Repr

/-- The `PlanLimits` interface returned by the plan-limits cache. -/
structure PlanLimits where
  plan : String
  displayName : String
  billingModel : BillingModel
  baseCost : Int
  pricePerSeat : Int
  maxSeats : Int
  maxCatalogItems : Int
  features : List String
  stripePriceIdBase : Option String
  stripePriceIdSeat : Option String
deriving DecidableEq, Repr

/-- Projection of a `SubscriptionType` document onto `PlanLimits`
(the loop body of `getAllPlanLimits`). -/
def toPlanLimits (d : SubscriptionTypeDoc) : PlanLimits :=
  { plan := d.plan
    displayName := d.displayName
    billingModel := d.billingModel
    baseCost := d.baseCost
    pricePerSeat := d.pricePerSeat
    maxSeats := d.maxSeats
    maxCatalogItems := d.maxCatalogItems
    features := d.features
    stripePriceIdBase := d.stripePriceIdBase
    stripePriceIdSeat := d.stripePriceIdSeat }

/-- Module-level mutable state of `subscription_type.service.ts`: the
`SubscriptionType` collection plus the in-memory plan-limits cache
(`planLimitsCache`, `cacheTimestamp`). -/
structure PlanCatalogState where
  types : List SubscriptionTypeDoc
  planLimitsCache : Option (List (String × PlanLimits)) := none
  cacheTimestamp : Nat := 0
deriving DecidableEq, Repr

/-- The cache freshness window: `CACHE_TTL_MS = 5 * 60 * 1000`. -/
def CACHE_TTL_MS : Nat := 5 * 60 * 1000

/-- Lookup in the cached map (`Map.get`); keys are unique, so first match. -/
def mapGet (k : String) (c : List (String × PlanLimits)) : Option PlanLimits :=
  (c.find? fun e => e.1 = k).map (·.2)

/-- Cache rebuild body of `getAllPlanLimits`: query the active
subscription types sorted by `sortOrder` and key them by plan. -/
def buildCache (ts : List SubscriptionTypeDoc) : List (String × PlanLimits) :=
  (List.insertionSort (fun a b => a.sortOrder ≤ b.sortOrder)
      (ts.filter fun d => d.status = .active)).map
    fun d => (d.plan, toPlanLimits d)

/-- The `getAllPlanLimits` service method: serve the cached map when it is
younger than `CACHE_TTL_MS`, otherwise rebuild it from the collection and
stamp the rebuild time. -/
def getAllPlanLimits (now : Nat) (s : PlanCatalogState) :
    List (String × PlanLimits) × PlanCatalogState :=
  match s.planLimitsCache with
  | some c =>
      if now - s.cacheTimestamp < CACHE_TTL_MS then (c, s)
      else
        let c' := buildCache s.types
        (c', { s with planLimitsCache := some c', cacheTimestamp := now })
  | none =>
      let c' := buildCache s.types
      (c', { s with planLimitsCache := some c', cacheTimestamp := now })

/-- The `getPlanLimits` service method: look the lowercased plan key up in
the (possibly rebuilt) cache, `NOT_FOUND` when absent. -/
def getPlanLimits (now : Nat) (s : PlanCatalogState) (plan : String) :
    Except AppError PlanLimits × PlanCatalogState :=
  let r := getAllPlanLimits now s
  match mapGet (lowerStr plan) r.1 with
  | some limits => (.ok limits, r.2)
  | none =>
      (.error (AppError.notFound
        ("Subscription plan \"" ++ plan ++ "\" not found")), r.2)

/-- The `invalidateCache` service method: drop the cached map and zero the
timestamp so the next read rebuilds. -/
def invalidateCache (s : PlanCatalogState) : PlanCatalogState :=
  { s with planLimitsCache := none, cacheTimestamp := 0 }

/-- Partial update payload accepted by `subscriptionTypeService.update`
(every field optional; the `plan` key is never updatable). -/
structure SubTypeUpdate where
  displayName : Option String := none
  description : Option String := none
  billingModel : Option BillingModel := none
  baseCost : Option Int := none
  pricePerSeat : Option Int := none
  maxSeats : Option Int := none
  maxCatalogItems : Option Int := none
  features : Option (List String) := none
  sortOrder : Option Int := none
  stripePriceIdBase : Option String := none
  stripePriceIdSeat : Option String := none
  status : Option SubTypeStatus := none
deriving DecidableEq, Repr

/-- Mongo `$set` of the present fields of a `SubTypeUpdate` onto a document. -/
def applySubTypeUpdate (u : SubTypeUpdate) (d : SubscriptionTypeDoc) :
    SubscriptionTypeDoc :=
  { d with
    displayName := u.displayName.getD d.displayName
    description := match u.description with | some x => some x | none => d.description
    billingModel := u.billingModel.getD d.billingModel
    baseCost := u.baseCost.getD d.baseCost
    pricePerSeat := u.pricePerSeat.getD d.pricePerSeat
    maxSeats := u.maxSeats.getD d.maxSeats
    maxCatalogItems := u.maxCatalogItems.getD d.maxCatalogItems
    features := u.features.getD d.features
    sortOrder := u.sortOrder.getD d.sortOrder
    stripePriceIdBase := match u.stripePriceIdBase with | some x => some x | none => d.stripePriceIdBase
    stripePriceIdSeat := match u.stripePriceIdSeat with | some x => some x | none => d.stripePriceIdSeat
    status := u.status.getD d.status }

/-- The `create` service method: conflict if the plan key already exists,
otherwise save the new document and invalidate the cache. -/
def subTypeCreate (data : SubscriptionTypeDoc) (s : PlanCatalogState) :
    Except AppError SubscriptionTypeDoc × PlanCatalogState :=
  if s.types.any fun d => d.plan = data.plan then
    (.error (AppError.conflict
      ("Subscription type with plan \"" ++ data.plan ++ "\" already exists")), s)
  else
    (.ok data, invalidateCache { s with types := s.types ++ [data] })

/-- The `update` service method: `findOneAndUpdate` on the lowercased plan
key with `$set` of the partial payload; `NOT_FOUND` when no document
matches; invalidates the cache on success and returns the updated doc. -/
def subTypeUpdate (plan : String) (u : SubTypeUpdate) (s : PlanCatalogState) :
    Except AppError SubscriptionTypeDoc × PlanCatalogState :=
  match s.types.find? fun d => d.plan = lowerStr plan with
  | none =>
      (.error (AppError.notFound
        ("Subscription type \"" ++ plan ++ "\" not found")), s)
  | some d =>
      (.ok (applySubTypeUpdate u d),
        invalidateCache
          { s with
            types := setFirst (fun x => x.plan = lowerStr plan)
              (applySubTypeUpdate u) s.types })

/-- The `deactivate` service method: `updateOne` setting `status` to
`inactive` on the lowercased plan key; `NOT_FOUND` when nothing matched;
invalidates the cache on success. -/
def subTypeDeactivate (plan : String) (s : PlanCatalogState) :
    Except AppError Unit × PlanCatalogState :=
  if s.types.any fun d => d.plan = lowerStr plan then
    (.ok (),
      invalidateCache
        { s with
          types := setFirst (fun d => d.plan = lowerStr plan)
            (fun d => { d with status := .inactive }) s.types })
  else
    (.error (AppError.notFound
      ("Subscription type \"" ++ plan ++ "\" not found")), s)

/-- The `validateSeatCount` service method: loads the plan limits and,
only for the `fixed` billing model, rejects a seat count above a finite
`maxSeats` with a `PLAN_LIMIT_REACHED` / `seats` bad-request error.
Dynamic billing has no seat limit (pay per seat). -/
def validateSeatCount (now : Nat) (s : PlanCatalogState) (plan : String)
    (seatCount : Int) : Except AppError Unit × PlanCatalogState :=
  match getPlanLimits now s plan with
  | (.error e, s') => (.error e, s')
  | (.ok limits, s') =>
      if limits.billingModel = .fixed then
        if limits.maxSeats ≠ -1 ∧ seatCount > limits.maxSeats then
          (.error (AppError.badRequest
            ("Plan \"" ++ plan ++ "\" allows maximum " ++
              toString limits.maxSeats ++ " seats")
            (some { code := "PLAN_LIMIT_REACHED", resource := "seats" })), s')
        else (.ok (), s')
      else (.ok (), s')

/-- The `validateCatalogItemCount` service method: rejects
`currentCount + addingCount` above a finite `maxCatalogItems` with a
`PLAN_LIMIT_REACHED` / `catalog_items` bad-request error; `-1` is
unlimited. -/
def validateCatalogItemCount (now : Nat) (s : PlanCatalogState) (plan : String)
    (currentCount : Int) (addingCount : Int) :
    Except AppError Unit × PlanCatalogState :=
  match getPlanLimits now s plan with
  | (.error e, s') => (.error e, s')
  | (.ok limits, s') =>
      if limits.maxCatalogItems ≠ -1 ∧
          currentCount + addingCount > limits.maxCatalogItems then
        (.error (AppError.badRequest
          ("Catalog item limit reached. Plan \"" ++ plan ++ "\" allows maximum "
            ++ toString limits.maxCatalogItems ++ " items.")
          (some { code := "PLAN_LIMIT_REACHED", resource := "catalog_items" })), s')
      else (.ok (), s')

/-- The four default subscription types inserted by `seedDefaults`. Note
the seeded `starter` plan has `billingModel: "dynamic"` with
`maxSeats: 5`. -/
def seedDefaultsList : List SubscriptionTypeDoc :=
  [ { plan := "free", displayName := "Free"
      description := some "Perfect for trying out the platform"
      billingModel := .fixed, baseCost := 0, pricePerSeat := 0
      maxSeats := 1, maxCatalogItems := 10
      features := ["Basic catalog management", "Single user"]
      sortOrder := 0, status := .active },
    { plan := "starter", displayName := "Starter"
      description := some "For small teams getting started"
      billingModel := .dynamic, baseCost := 2900, pricePerSeat := 500
      maxSeats := 5, maxCatalogItems := 100
      features := ["Up to 5 team members", "100 catalog items", "Email support"]
      sortOrder := 1, status := .active },
    { plan := "professional", displayName := "Professional"
      description := some "For growing businesses"
      billingModel := .dynamic, baseCost := 9900, pricePerSeat := 400
      maxSeats := 20, maxCatalogItems := 500
      features := ["Up to 20 team members", "500 catalog items",
        "Priority support", "Analytics dashboard"]
      sortOrder := 2, status := .active },
    { plan := "enterprise", displayName := "Enterprise"
      description := some "For large organizations with custom needs"
      billingModel := .dynamic, baseCost := 29900, pricePerSeat := 300
      maxSeats := -1, maxCatalogItems := -1
      features := ["Unlimited team members", "Unlimited catalog items",
        "Dedicated support", "Custom integrations", "SLA"]
      sortOrder := 3, status := .active } ]

/- ### Organizations (`organization.model.ts`, `organization.service.ts`) -/

/-- The organization `status` enum: `"active" | "suspended" | "cancelled"`. -/
inductive OrgStatus
  | active
  | suspended
  | cancelled
deriving DecidableEq, Repr

/-- String rendering of an organization status (as stored / reported). -/
def OrgStatus.toStr : OrgStatus → String
  | .active => "active"
  | .suspended => "suspended"
  | .cancelled => "cancelled"

/-- The embedded `subscription` sub-document of an organization. All
fields carry schema defaults, so the sub-document is always present. -/
structure Subscription where
  plan : String := "free"
  stripeCustomerId : Option String := none
  stripeSubscriptionId : Option String := none
  currentPeriodStart : Option Int := none
  currentPeriodEnd : Option Int := none
  cancelAtPeriodEnd : Bool := false
  seatCount : Int := 1
  catalogItemCount : Int := 0
deriving DecidableEq, Repr

/-- An `Organization` document (fields relevant to the billing engine). -/
structure Org where
  id : String
  name : String := ""
  email : String := ""
  status : OrgStatus := .active
  subscription : Subscription := {}
deriving DecidableEq, Repr

/-- Mongo `findById` on the organizations collection. -/
def findOrg (orgs : List Org) (orgId : String) : Option Org :=
  orgs.find? fun o => o.id = orgId

/-- The `canAddCatalogItem` service method: `NOT_FOUND` when the
organization is absent; otherwise true iff the plan's `maxCatalogItems`
is `-1` (unlimited) or the current counter is strictly below it. -/
def canAddCatalogItem (now : Nat) (pc : PlanCatalogState) (orgs : List Org)
    (orgId : String) : Except AppError Bool × PlanCatalogState :=
  match findOrg orgs orgId with
  | none => (.error (AppError.notFound "Organization not found"), pc)
  | some org =>
      match getPlanLimits now pc org.subscription.plan with
      | (.error e, pc') => (.error e, pc')
      | (.ok limits, pc') =>
          if limits.maxCatalogItems = -1 then (.ok true, pc')
          else (.ok (decide (org.subscription.catalogItemCount <
            limits.maxCatalogItems)), pc')

/-- The `incrementCatalogItemCount` service method: `NOT_FOUND` when the
organization is absent; re-validates against the plan limit via
`validateCatalogItemCount` and only then applies the atomic
`$inc` of the stored counter. -/
def incrementCatalogItemCount (now : Nat) (pc : PlanCatalogState)
    (orgs : List Org) (orgId : String) (count : Int) :
    Except AppError Unit × PlanCatalogState × List Org :=
  match findOrg orgs orgId with
  | none => (.error (AppError.notFound "Organization not found"), pc, orgs)
  | some org =>
      match validateCatalogItemCount now pc org.subscription.plan
          org.subscription.catalogItemCount count with
      | (.error e, pc') => (.error e, pc', orgs)
      | (.ok _, pc') =>
          (.ok (), pc',
            setFirst (fun o => o.id = orgId)
              (fun o =>
                { o with subscription :=
                  { o.subscription with catalogItemCount :=
                    o.subscription.catalogItemCount + count } })
              orgs)

/-- The `decrementCatalogItemCount` service method: a bare `updateOne`
with `$inc` of `-count`, with no plan-limit check, no floor at zero and
no existence check (a missing organization simply matches nothing). -/
def decrementCatalogItemCount (orgs : List Org) (orgId : String)
    (count : Int) : List Org :=
  setFirst (fun o => o.id = orgId)
    (fun o =>
      { o with subscription :=
        { o.subscription with catalogItemCount :=
          o.subscription.catalogItemCount + (-count) } })
    orgs

/-- The `canAddSeat` service method: `NOT_FOUND` when the organization is
absent; otherwise true iff the plan's `maxSeats` is `-1` (unlimited) or
the current seat count is strictly below it. -/
def canAddSeat (now : Nat) (pc : PlanCatalogState) (orgs : List Org)
    (orgId : String) : Except AppError Bool × PlanCatalogState :=
  match findOrg orgs orgId with
  | none => (.error (AppError.notFound "Organization not found"), pc)
  | some org =>
      match getPlanLimits now pc org.subscription.plan with
      | (.error e, pc') => (.error e, pc')
      | (.ok limits, pc') =>
          if limits.maxSeats = -1 then (.ok true, pc')
          else (.ok (decide (org.subscription.seatCount < limits.maxSeats)), pc')

/-- The `updateSeatCount` service method: `NOT_FOUND` when the
organization is absent; validates the requested seat count via
`validateSeatCount` and then `$set`s `subscription.seatCount`. -/
def updateSeatCount (now : Nat) (pc : PlanCatalogState) (orgs : List Org)
    (orgId : String) (seatCount : Int) :
    Except AppError Unit × PlanCatalogState × List Org :=
  match findOrg orgs orgId with
  | none => (.error (AppError.notFound "Organization not found"), pc, orgs)
  | some org =>
      match validateSeatCount now pc org.subscription.plan seatCount with
      | (.error e, pc') => (.error e, pc', orgs)
      | (.ok _, pc') =>
          (.ok (), pc',
            setFirst (fun o => o.id = orgId)
              (fun o =>
                { o with subscription :=
                  { o.subscription with seatCount := seatCount } })
              orgs)

/-- Partial payload of `organizationService.updateSubscription`; `none`
models an `undefined` entry, which the service skips (`value !==
undefined`). -/
structure SubUpdate where
  plan : Option String := none
  stripeCustomerId : Option String := none
  stripeSubscriptionId : Option String := none
  currentPeriodStart : Option Int := none
  currentPeriodEnd : Option Int := none
  cancelAtPeriodEnd : Option Bool := none
deriving DecidableEq, Repr

/-- Mongo `$set` of the defined fields of a `SubUpdate` onto the embedded
subscription. -/
def applySubUpdate (u : SubUpdate) (s : Subscription) : Subscription :=
  { s with
    plan := u.plan.getD s.plan
    stripeCustomerId := match u.stripeCustomerId with
      | some x => some x | none => s.stripeCustomerId
    stripeSubscriptionId := match u.stripeSubscriptionId with
      | some x => some x | none => s.stripeSubscriptionId
    currentPeriodStart := match u.currentPeriodStart with
      | some x => some x | none => s.currentPeriodStart
    currentPeriodEnd := match u.currentPeriodEnd with
      | some x => some x | none => s.currentPeriodEnd
    cancelAtPeriodEnd := u.cancelAtPeriodEnd.getD s.cancelAtPeriodEnd }

/-- The `updateSubscription` service method: `updateOne` by id, `$set` of
only the defined subscription fields; a missing organization matches
nothing and is silently a no-op. -/
def updateSubscription (orgId : String) (u : SubUpdate) (orgs : List Org) :
    List Org :=
  setFirst (fun o => o.id = orgId)
    (fun o => { o with subscription := applySubUpdate u o.subscription }) orgs

/-- The `findByStripeCustomerId` service method. -/
def findByStripeCustomerId (stripeCustomerId : String) (orgs : List Org) :
    Option Org :=
  orgs.find? fun o => o.subscription.stripeCustomerId = some stripeCustomerId

/-- The `suspend` service method: `$set { status: "suspended" }` by id. -/
def suspendOrg (orgId : String) (orgs : List Org) : List Org :=
  setFirst (fun o => o.id = orgId) (fun o => { o with status := .suspended }) orgs

/-- The `reactivate` service method: `$set { status: "active" }` by id. -/
def reactivateOrg (orgId : String) (orgs : List Org) : List Org :=
  setFirst (fun o => o.id = orgId) (fun o => { o with status := .active }) orgs

/- ### Billing events (`billing_event.model.ts`) -/

/-- A `BillingEvent` document (audit-log row). Fields not set at creation
take the schema defaults: `processed: false`, `currency: "usd"`. The
rows upserted by `handleWebhookEvent` carry no `organizationId`, so the
field is optional here. -/
structure BillingEventDoc where
  organizationId : Option String := none
  eventType : Option String := none
  stripeEventId : Option String := none
  stripeCustomerId : Option String := none
  stripeSubscriptionId : Option String := none
  stripeInvoiceId : Option String := none
  amount : Option Int := none
  currency : String := "usd"
  previousPlan : Option String := none
  newPlan : Option String := none
  seatChange : Option Int := none
  processed : Bool := false
  processedAt : Option Nat := none
  error : Option String := none
deriving DecidableEq, Repr

/-- Mongo `BillingEvent.findOne { stripeEventId: id }`. -/
def findEvent (events : List BillingEventDoc) (id : String) :
    Option BillingEventDoc :=
  events.find? fun r => r.stripeEventId = some id

/-- Mongo `findOneAndUpdate({ stripeEventId: id }, { $set: ... },
{ upsert: true })`: apply `f` to the first row keyed by `id`, or insert
`mk` when none matches. -/
def upsertByEventId (id : String) (f : BillingEventDoc → BillingEventDoc)
    (mk : BillingEventDoc) : List BillingEventDoc → List BillingEventDoc
  | [] => [mk]
  | r :: rs =>
      if r.stripeEventId = some id then f r :: rs
      else r :: upsertByEventId id f mk rs

/-- Success-path upsert of `handleWebhookEvent`:
`$set { processed: true, processedAt: now }` on the row keyed by the
event id, inserting it if absent. -/
def markProcessed (now : Nat) (id : String)
    (events : List BillingEventDoc) : List BillingEventDoc :=
  upsertByEventId id
    (fun r => { r with processed := true, processedAt := some now })
    { stripeEventId := some id, processed := true, processedAt := some now }
    events

/-- Error-path upsert of `handleWebhookEvent`: `$set { error: msg }` on
the row keyed by the event id, inserting it if absent (`processed` is
left at its stored value / schema default `false`). -/
def recordEventError (msg : String) (id : String)
    (events : List BillingEventDoc) : List BillingEventDoc :=
  upsertByEventId id
    (fun r => { r with error := some msg })
    { stripeEventId := some id, error := some msg }
    events

/- ### Stripe webhook events (`billing.service.ts`) -/

/-- Fields of a `Stripe.Checkout.Session` the handler reads. The numeric
`seatCount` metadata string is modelled as the integer it denotes
(`parseInt(metadata.seatCount ?? "1", 10)`); `none` models an absent
entry. `subscription`/`customer` collapse JS `null`/`undefined` to
`none`. -/
structure CheckoutSession where
  id : String
  organizationIdMeta : Option String := none
  planMeta : Option String := none
  seatCountMeta : Option Int := none
  subscription : Option String := none
  customer : Option String := none
deriving DecidableEq, Repr

/-- Fields of a `Stripe.Subscription` the handlers read.
`itemPeriodStart`/`itemPeriodEnd` are the provider epoch-second stamps of
`items.data[0]`, `none` when the item or field is absent. -/
structure StripeSubscription where
  id : String
  organizationIdMeta : Option String := none
  itemPeriodStart : Option Int := none
  itemPeriodEnd : Option Int := none
  cancelAtPeriodEnd : Bool := false
  status : String := "active"
deriving DecidableEq, Repr

/-- Fields of a `Stripe.Invoice` the handlers read. -/
structure StripeInvoice where
  id : String
  customer : String
  amountPaid : Int := 0
  amountDue : Int := 0
  currency : String := "usd"
deriving DecidableEq, Repr

/-- Payload of a webhook event, tagged by the `event.type` dispatch of
`handleWebhookEvent` (unrecognized types carry only their type string). -/
inductive StripeEventData
  | checkoutCompleted (s : CheckoutSession)
  | subscriptionCreated (s : StripeSubscription)
  | subscriptionUpdated (s : StripeSubscription)
  | subscriptionDeleted (s : StripeSubscription)
  | invoicePaid (i : StripeInvoice)
  | invoicePaymentFailed (i : StripeInvoice)
  | unrecognized (t : String)
deriving DecidableEq, Repr

/-- A `Stripe.Event`: provider event identifier plus typed payload. -/
structure StripeEvent where
  id : String
  data : StripeEventData
deriving DecidableEq, Repr

/-- Combined persistent state the billing service acts on: plan-catalog
module state, organizations collection, billing-event collection. -/
structure BillingState where
  pc : PlanCatalogState
  orgs : List Org
  events : List BillingEventDoc
deriving DecidableEq, Repr

/-- The `handleCheckoutCompleted` handler: returns silently when the
session metadata is missing `organizationId` or `plan`; otherwise sets
the plan and external subscription reference, sets the seat counter via
`updateSeatCount` (which may throw), and appends a
`subscription_created` audit row keyed by the session id. -/
def handleCheckoutCompleted (now : Nat) (st : BillingState)
    (s : CheckoutSession) : Except AppError Unit × BillingState :=
  match s.organizationIdMeta, s.planMeta with
  | some orgId, some plan =>
      let seatCount := s.seatCountMeta.getD 1
      let orgs1 := updateSubscription orgId
        { plan := some plan, stripeSubscriptionId := s.subscription } st.orgs
      match updateSeatCount now st.pc orgs1 orgId seatCount with
      | (.error e, pc', orgs2) =>
          (.error e, { st with pc := pc', orgs := orgs2 })
      | (.ok _, pc', orgs2) =>
          let row : BillingEventDoc :=
            { organizationId := some orgId
              eventType := some "subscription_created"
              stripeEventId := some s.id
              stripeCustomerId := s.customer
              stripeSubscriptionId := s.subscription
              newPlan := some plan
              seatChange := some seatCount }
          (.ok (),
            { st with pc := pc', orgs := orgs2, events := st.events ++ [row] })
  | _, _ => (.ok (), st)

/-- The `handleSubscriptionUpdated` handler: bad request when the
subscription metadata has no `organizationId`; otherwise sets the
external subscription reference, the billing-period bounds (converted
from provider seconds to milliseconds, skipped when absent or zero by JS
truthiness) and the cancel-at-period-end flag, then reactivates the
organization when the provider reports the subscription `active`. -/
def handleSubscriptionUpdated (st : BillingState) (sub : StripeSubscription) :
    Except AppError Unit × BillingState :=
  match sub.organizationIdMeta with
  | none =>
      (.error (AppError.badRequest
        "Missing organizationId in subscription metadata"), st)
  | some orgId =>
      let u : SubUpdate :=
        { stripeSubscriptionId := some sub.id
          currentPeriodStart := match sub.itemPeriodStart with
            | some t => if t ≠ 0 then some (t * 1000) else none
            | none => none
          currentPeriodEnd := match sub.itemPeriodEnd with
            | some t => if t ≠ 0 then some (t * 1000) else none
            | none => none
          cancelAtPeriodEnd := some sub.cancelAtPeriodEnd }
      let orgs1 := updateSubscription orgId u st.orgs
      let orgs2 := if sub.status = "active" then reactivateOrg orgId orgs1
        else orgs1
      (.ok (), { st with orgs := orgs2 })

/-- The `handleSubscriptionDeleted` handler: bad request when the
subscription metadata has no `organizationId`; otherwise downgrades the
organization's plan to `"free"` (the only defined field of the update)
and appends a `subscription_cancelled` audit row. -/
def handleSubscriptionDeleted (st : BillingState) (sub : StripeSubscription) :
    Except AppError Unit × BillingState :=
  match sub.organizationIdMeta with
  | none =>
      (.error (AppError.badRequest
        "Missing organizationId in subscription metadata"), st)
  | some orgId =>
      let orgs1 := updateSubscription orgId { plan := some "free" } st.orgs
      let row : BillingEventDoc :=
        { organizationId := some orgId
          eventType := some "subscription_cancelled"
          stripeSubscriptionId := some sub.id }
      (.ok (), { st with orgs := orgs1, events := st.events ++ [row] })

/-- The `handleInvoicePaid` handler: `NOT_FOUND` when no organization
matches the invoice's customer reference; otherwise appends a
`payment_succeeded` audit row and reactivates the organization when it
was suspended. -/
def handleInvoicePaid (st : BillingState) (inv : StripeInvoice) :
    Except AppError Unit × BillingState :=
  match findByStripeCustomerId inv.customer st.orgs with
  | none =>
      (.error (AppError.notFound "Organization not found for Stripe customer"),
        st)
  | some org =>
      let row : BillingEventDoc :=
        { organizationId := some org.id
          eventType := some "payment_succeeded"
          stripeInvoiceId := some inv.id
          stripeCustomerId := some inv.customer
          amount := some inv.amountPaid
          currency := inv.currency }
      let orgs1 := if org.status = .suspended then reactivateOrg org.id st.orgs
        else st.orgs
      (.ok (), { st with orgs := orgs1, events := st.events ++ [row] })

/-- The `handleInvoicePaymentFailed` handler: `NOT_FOUND` when no
organization matches the invoice's customer reference; otherwise appends
a `payment_failed` audit row and suspends the organization
unconditionally. -/
def handleInvoicePaymentFailed (st : BillingState) (inv : StripeInvoice) :
    Except AppError Unit × BillingState :=
  match findByStripeCustomerId inv.customer st.orgs with
  | none =>
      (.error (AppError.notFound "Organization not found for Stripe customer"),
        st)
  | some org =>
      let row : BillingEventDoc :=
        { organizationId := some org.id
          eventType := some "payment_failed"
          stripeInvoiceId := some inv.id
          stripeCustomerId := some inv.customer
          amount := some inv.amountDue
          currency := inv.currency }
      (.ok (),
        { st with orgs := suspendOrg org.id st.orgs
                  events := st.events ++ [row] })

/-- The `switch (event.type)` dispatch of `handleWebhookEvent`
(`customer.subscription.created` and `.updated` share a handler;
unrecognized types are a logged no-op). -/
def dispatchEvent (now : Nat) (st : BillingState) (ev : StripeEvent) :
    Except AppError Unit × BillingState :=
  match ev.data with
  | .checkoutCompleted s => handleCheckoutCompleted now st s
  | .subscriptionCreated s => handleSubscriptionUpdated st s
  | .subscriptionUpdated s => handleSubscriptionUpdated st s
  | .subscriptionDeleted s => handleSubscriptionDeleted st s
  | .invoicePaid i => handleInvoicePaid st i
  | .invoicePaymentFailed i => handleInvoicePaymentFailed st i
  | .unrecognized _ => (.ok (), st)

/-- Body of `handleWebhookEvent` after the idempotency early return: run
the type-specific handler dispatch inside the `try`, then on success
upsert the `BillingEvent` row with `processed: true` and a timestamp, and
on a thrown `AppError` upsert the row with the error message
(`err.message`) and re-raise the error. -/
def runAndRecord (now : Nat) (st : BillingState) (ev : StripeEvent) :
    Except AppError Unit × BillingState :=
  match dispatchEvent now st ev with
  | (.ok _, st1) =>
      (.ok (), { st1 with events := markProcessed now ev.id st1.events })
  | (.error e, st1) =>
      (.error e,
        { st1 with events := recordEventError e.message ev.id st1.events })

/-- The `handleWebhookEvent` service method: return success immediately
when a `BillingEvent` row for the event id exists with
`processed: true` (idempotency); otherwise run the handler body
`runAndRecord`. -/
def handleWebhookEvent (now : Nat) (st : BillingState) (ev : StripeEvent) :
    Except AppError Unit × BillingState :=
  match findEvent st.events ev.id with
  | some existing =>
      if existing.processed then (.ok (), st)
      else runAndRecord now st ev
  | none => runAndRecord now st ev

/- ### Organization status gate (`auth.service.ts`) -/

/-- A `User` document (fields `isActiveOrganization` reads). -/
structure User where
  id : String
  role : String
  organizationId : String
deriving DecidableEq, Repr

/-- Result shape of `isActiveOrganization`. -/
structure IsActiveResp where
  isActive : Bool
  subscription : Option Subscription
  status : String
deriving DecidableEq, Repr

/-- The `isActiveOrganization` service method: loads the user's profile
(`NOT_FOUND` when absent), requires the `owner` role, loads the
organization (`NOT_FOUND` when absent); short-circuits when the status is
not `active`; when the status is `active` but the stored
`currentPeriodEnd` is in the past, persists `status: "suspended"` on the
organization as a side effect of the read and reports suspended;
otherwise reports active. -/
def isActiveOrganization (now : Int) (users : List User) (orgs : List Org)
    (userId : String) : Except AppError IsActiveResp × List Org :=
  match users.find? fun u => u.id = userId with
  | none => (.error (AppError.notFound "User not found"), orgs)
  | some user =>
      if user.role ≠ "owner" then
        (.error (AppError.unauthorized
          "Only organization owners can check payment status"), orgs)
      else
        match findOrg orgs user.organizationId with
        | none => (.error (AppError.notFound "Organization not found"), orgs)
        | some org =>
            let response : IsActiveResp :=
              { isActive := false
                subscription := some org.subscription
                status := org.status.toStr }
            if org.status ≠ .active then (.ok response, orgs)
            else
              match org.subscription.currentPeriodEnd with
              | some t =>
                  if t < now then
                    (.ok { response with status := "suspended" },
                      setFirst (fun o => o.id = user.organizationId)
                        (fun o => { o with status := .suspended }) orgs)
                  else (.ok { response with isActive := true }, orgs)
              | none => (.ok { response with isActive := true }, orgs)

/- ### Concrete fixtures used to instantiate the theorems -/

/-- Plan-catalog state freshly seeded with the default plans, cache
unbuilt. -/
def starterCatalog : PlanCatalogState := { types := seedDefaultsList }

/-- The seeded catalog state after one cache rebuild at time 0. -/
def seededRebuilt : PlanCatalogState :=
  { types := seedDefaultsList
    planLimitsCache := some (buildCache seedDefaultsList)
    cacheTimestamp := 0 }

/-- An organization on the seeded `starter` plan holding 5 seats. -/
def orgStarter5 : Org :=
  { id := "org_a", subscription := { plan := "starter", seatCount := 5 } }

/-- An organization on the seeded `free` plan at its 10-item catalog
limit. -/
def orgFree10 : Org :=
  { id := "org_f", subscription := { plan := "free", catalogItemCount := 10 } }

/-- An organization on the seeded `enterprise` plan with huge counters. -/
def orgEnterprise : Org :=
  { id := "org_e"
    subscription :=
      { plan := "enterprise", seatCount := 1000000, catalogItemCount := 1000000 } }

/-- An organization with an empty catalog counter. -/
def orgZero : Org := { id := "org_z", subscription := { catalogItemCount := 0 } }

/-- A minimal billing state over the seeded catalog. -/
def emptyBilling : BillingState :=
  { pc := starterCatalog, orgs := [], events := [] }

/-- An unrecognized-type webhook event. -/
def evUnknown : StripeEvent := { id := "evt_1", data := .unrecognized "foo.bar" }

/-- An `invoice.paid` webhook event whose customer matches no
organization (its handler throws `NOT_FOUND`). -/
def evOrphanInvoice : StripeEvent :=
  { id := "evt_2"
    data := .invoicePaid { id := "in_1", customer := "cus_missing" } }

/-- A `checkout.session.completed` event with metadata missing both
`organizationId` and `plan`. -/
def evBadCheckout : StripeEvent :=
  { id := "evt_3", data := .checkoutCompleted { id := "cs_1" } }

/-- A `customer.subscription.deleted` event for organization `org_b`. -/
def evSubDeleted : StripeEvent :=
  { id := "evt_4"
    data := .subscriptionDeleted
      { id := "sub_9", organizationIdMeta := some "org_b" } }

/-- An organization on the `professional` plan with a live Stripe
subscription, used to observe the frame of the deleted-subscription
handler. -/
def orgPro : Org :=
  { id := "org_b", name := "Pro Org", email := "pro@example.com"
    status := .active
    subscription :=
      { plan := "professional", stripeCustomerId := some "cus_b"
        stripeSubscriptionId := some "sub_9"
        currentPeriodStart := some 1000, currentPeriodEnd := some 2000
        cancelAtPeriodEnd := false, seatCount := 7, catalogItemCount := 3 } }

/-- The owner of `org_c`, used for the status-gate scenario. -/
def ownerUser : User := { id := "user_1", role := "owner", organizationId := "org_c" }

/-- An active organization whose stored period end (time 100) is already
in the past. -/
def orgExpired : Org :=
  { id := "org_c", status := .active
    subscription := { plan := "starter", currentPeriodEnd := some 100 } }

/-- The billing-event row recorded for `evt_1` at time 5. -/
def rowEvt1 : BillingEventDoc :=
  { stripeEventId := some "evt_1", processed := true, processedAt := some 5 }

/-- The billing state after the first successful delivery of `evt_1`. -/
def afterFirstDelivery : BillingState := { emptyBilling with events := [rowEvt1] }

deriving instance DecidableEq for Except

/- ### Helper lemmas about `setFirst` (Mongo `updateOne`) -/

/-- `updateOne` on an empty match set is a no-op. -/
theorem setFirst_of_find?_none {α : Type} {p : α → Bool} {f : α → α}
    {l : List α} (h : l.find? p = none) : setFirst p f l = l := by
  induction l with
  | nil => rfl
  | cons x xs ih =>
      by_cases hx : p x
      · rw [List.find?_cons_of_pos xs hx] at h; cases h
      · rw [List.find?_cons_of_neg xs hx] at h
        simp [setFirst, hx, ih h]

/-- Unfolding equation of `setFirst` at a matching head. -/
theorem setFirst_cons_pos {α : Type} {p : α → Bool} {f : α → α} {x : α}
    {xs : List α} (h : p x = true) :
    setFirst p f (x :: xs) = f x :: xs := by
  simp [setFirst, h]

/-- Unfolding equation of `setFirst` at a non-matching head. -/
theorem setFirst_cons_neg {α : Type} {p : α → Bool} {f : α → α} {x : α}
    {xs : List α} (h : p x = false) :
    setFirst p f (x :: xs) = x :: setFirst p f xs := by
  simp [setFirst, h]

/-- The first match of `p` after `setFirst p f` is the image under `f` of
the first match before, provided `f` preserves `p`. -/
theorem find?_setFirst {α : Type} {p : α → Bool} {f : α → α}
    (hp : ∀ x, p (f x) = p x) (l : List α) :
    (setFirst p f l).find? p = (l.find? p).map f := by
  induction l with
  | nil => rfl
  | cons x xs ih =>
      by_cases hx : p x
      · simp only [setFirst, if_pos hx]
        rw [List.find?_cons_of_pos _ ((hp x).symm ▸ hx),
          List.find?_cons_of_pos _ hx]
        rfl
      · simp only [setFirst, if_neg hx]
        rw [List.find?_cons_of_neg _ hx, List.find?_cons_of_neg _ hx, ih]

/-- `setFirst` leaves any projection that `f` preserves unchanged on the
whole list. -/
theorem map_setFirst {α β : Type} {p : α → Bool} {f : α → α} (g : α → β)
    (hg : ∀ x, g (f x) = g x) (l : List α) :
    (setFirst p f l).map g = l.map g := by
  induction l with
  | nil => rfl
  | cons x xs ih =>
      by_cases hx : p x
      · simp [setFirst, hx, hg]
      · simp [setFirst, hx, ih]

/-- Element-wise relation between a list and its `setFirst` image: every
position holds either the original element or the image of an element
satisfying `p`. -/
theorem forall₂_setFirst {α : Type} (p : α → Bool) (f : α → α) (l : List α) :
    List.Forall₂ (fun x y => y = x ∨ (p x = true ∧ y = f x)) l
      (setFirst p f l) := by
  induction l with
  | nil => exact .nil
  | cons x xs ih =>
      by_cases hx : p x
      · simp only [setFirst, if_pos hx]
        exact .cons (Or.inr ⟨hx, rfl⟩) (List.forall₂_same.mpr fun y _ => Or.inl rfl)
      · simp only [setFirst, if_neg hx]
        exact .cons (Or.inl rfl) ih

/-- Image of the first match lands in the `setFirst` result. -/
theorem mem_setFirst_of_find? {α : Type} {p : α → Bool} {f : α → α}
    {l : List α} {x : α} (h : l.find? p = some x) : f x ∈ setFirst p f l := by
  induction l with
  | nil => cases h
  | cons a as ih =>
      by_cases ha : p a
      · rw [List.find?_cons_of_pos as ha] at h
        cases h; simp [setFirst, ha]
      · rw [List.find?_cons_of_neg as ha] at h
        simp only [setFirst, if_neg ha, List.mem_cons]
        exact Or.inr (ih h)

/- ### Helper lemmas about the plan-limits cache -/

/-- Membership in a rebuilt cache map: exactly the active documents,
keyed by their plan. -/
theorem mem_buildCache {ts : List SubscriptionTypeDoc} {e : String × PlanLimits} :
    e ∈ buildCache ts ↔
      ∃ d, d ∈ ts ∧ d.status = .active ∧ e = (d.plan, toPlanLimits d) := by
  unfold buildCache
  rw [List.mem_map]
  constructor
  · rintro ⟨d, hd, rfl⟩
    have hd' := (List.perm_insertionSort _ _).mem_iff.mp hd
    have hf := List.mem_filter.mp hd'
    exact ⟨d, hf.1, by simpa using hf.2, rfl⟩
  · rintro ⟨d, hd, hact, rfl⟩
    exact ⟨d,
      (List.perm_insertionSort _ _).mem_iff.mpr
        (List.mem_filter.mpr ⟨hd, by simpa using hact⟩), rfl⟩

/-- A collection with pairwise-distinct plan keys rebuilds into a cache
map with pairwise-distinct keys. -/
theorem buildCache_keys_nodup {ts : List SubscriptionTypeDoc}
    (h : (ts.map (·.plan)).Nodup) : ((buildCache ts).map (·.1)).Nodup := by
  unfold buildCache
  rw [List.map_map]
  have hsub : List.Sublist ((ts.filter fun d => d.status = .active).map (·.plan))
      (ts.map (·.plan)) := (List.filter_sublist ts).map _
  have hfil : ((ts.filter fun d => d.status = .active).map (·.plan)).Nodup :=
    h.sublist hsub
  have hperm :
      List.Perm
        ((List.insertionSort (fun a b => a.sortOrder ≤ b.sortOrder)
          (ts.filter fun d => d.status = .active)).map (·.plan))
        ((ts.filter fun d => d.status = .active).map (·.plan)) :=
    (List.perm_insertionSort _ _).map _
  have : ((List.insertionSort (fun a b => a.sortOrder ≤ b.sortOrder)
      (ts.filter fun d => d.status = .active)).map (·.plan)).Nodup :=
    hperm.nodup_iff.mpr hfil
  simpa [Function.comp] using this

/-- Key-miss characterization of the cache map lookup. -/
theorem mapGet_eq_none {k : String} {c : List (String × PlanLimits)} :
    mapGet k c = none ↔ ∀ e ∈ c, e.1 ≠ k := by
  simp [mapGet, List.find?_eq_none]

/-- Key-hit lookup in a cache map with pairwise-distinct keys. -/
theorem mapGet_of_nodup {k : String} {v : PlanLimits}
    {c : List (String × PlanLimits)} (hnd : (c.map (·.1)).Nodup)
    (hm : (k, v) ∈ c) : mapGet k c = some v := by
  induction c with
  | nil => cases hm
  | cons e es ih =>
      simp only [List.map_cons, List.nodup_cons] at hnd
      rcases List.mem_cons.mp hm with rfl | hm'
      · simp [mapGet]
      · by_cases he : e.1 = k
        · exact absurd (he ▸ List.mem_map.mpr ⟨(k, v), hm', rfl⟩) hnd.1
        · have step : mapGet k (e :: es) = mapGet k es := by
            simp only [mapGet]
            rw [List.find?_cons_of_neg _ (by simpa using he)]
          rw [step]
          exact ih hnd.2 hm'

/-- After `deactivate`'s `updateOne`, no document with the targeted plan
key is still active (keys are pairwise distinct, as the unique index on
`plan` guarantees). -/
theorem setFirst_deactivate_inactive {k : String}
    {l : List SubscriptionTypeDoc} (hnd : (l.map (·.plan)).Nodup) :
    ∀ d ∈ setFirst (fun d => d.plan = k)
      (fun d => { d with status := .inactive }) l,
      d.plan = k → d.status = .inactive := by
  induction l with
  | nil => intro d hd; cases hd
  | cons x xs ih =>
      simp only [List.map_cons, List.nodup_cons] at hnd
      by_cases hx : x.plan = k
      · rw [setFirst_cons_pos (by simpa using hx)]
        intro d hd hdk
        rcases List.mem_cons.mp hd with rfl | hd'
        · rfl
        · exact absurd (List.mem_map.mpr ⟨d, hd', hdk⟩) (hx ▸ hnd.1)
      · rw [setFirst_cons_neg (by simpa using hx)]
        intro d hd hdk
        rcases List.mem_cons.mp hd with rfl | hd'
        · exact absurd hdk hx
        · exact ih hnd.2 d hd' hdk

/-- A cache rebuild happens whenever the cached map has been dropped. -/
theorem getAllPlanLimits_of_none {now : Nat} {s : PlanCatalogState}
    (hc : s.planLimitsCache = none) :
    getAllPlanLimits now s =
      (buildCache s.types,
        { s with planLimitsCache := some (buildCache s.types),
                 cacheTimestamp := now }) := by
  simp [getAllPlanLimits, hc]

/- ### Helper lemmas about the billing-event audit log -/

/-- Lookup after an upsert keyed by the event id: the stored row is the
updated first match, or the freshly inserted row when nothing matched
(provided the update preserves the key and the fresh row carries it). -/
theorem findEvent_upsertByEventId {id : String}
    {f : BillingEventDoc → BillingEventDoc} {mk : BillingEventDoc}
    (hf : ∀ r, (f r).stripeEventId = r.stripeEventId)
    (hmk : mk.stripeEventId = some id) (evs : List BillingEventDoc) :
    findEvent (upsertByEventId id f mk evs) id =
      some ((findEvent evs id).elim mk f) := by
  induction evs with
  | nil =>
      unfold findEvent upsertByEventId
      rw [List.find?_cons_of_pos _ (by simp [hmk])]
      rfl
  | cons r rs ih =>
      by_cases hr : r.stripeEventId = some id
      · simp only [upsertByEventId, if_pos (by simpa using hr)]
        unfold findEvent
        rw [List.find?_cons_of_pos _ (by simp [hf r, hr]),
          List.find?_cons_of_pos _ (by simpa using hr)]
        rfl
      · simp only [upsertByEventId, if_neg (by simpa using hr)]
        unfold findEvent
        rw [List.find?_cons_of_neg _ (by simpa using hr),
          List.find?_cons_of_neg _ (by simpa using hr)]
        exact ih

/-- Lookup in an appended audit log when the prefix has no match. -/
theorem findEvent_append_of_none {id : String} {l₁ : List BillingEventDoc}
    (l₂ : List BillingEventDoc) (h : findEvent l₁ id = none) :
    findEvent (l₁ ++ l₂) id = findEvent l₂ id := by
  induction l₁ with
  | nil => rfl
  | cons r rs ih =>
      by_cases hr : r.stripeEventId = some id
      · unfold findEvent at h
        rw [List.find?_cons_of_pos _ (by simpa using hr)] at h
        cases h
      · unfold findEvent at h ⊢
        rw [List.find?_cons_of_neg _ (by simpa using hr)] at h
        rw [List.cons_append, List.find?_cons_of_neg _ (by simpa using hr)]
        exact ih h

/-- After the success-path upsert, the row keyed by the event id exists
with `processed: true` and the supplied timestamp. -/
theorem findEvent_markProcessed (now : Nat) (id : String)
    (evs : List BillingEventDoc) :
    ∃ row, findEvent (markProcessed now id evs) id = some row ∧
      row.processed = true ∧ row.processedAt = some now := by
  have h := @findEvent_upsertByEventId id
    (fun r => { r with processed := true, processedAt := some now })
    { stripeEventId := some id, processed := true, processedAt := some now }
    (fun _ => rfl) rfl evs
  refine ⟨_, h, ?_⟩
  cases findEvent evs id <;> exact ⟨rfl, rfl⟩

/-- After the error-path upsert on a log whose existing rows for the id
are all unprocessed, the row keyed by the event id exists with the error
text and `processed: false`. -/
theorem findEvent_recordEventError (msg : String) (id : String)
    (evs : List BillingEventDoc)
    (hunproc : ∀ r, findEvent evs id = some r → r.processed = false) :
    ∃ row, findEvent (recordEventError msg id evs) id = some row ∧
      row.processed = false ∧ row.error = some msg := by
  have h := @findEvent_upsertByEventId id
    (fun r => { r with error := some msg })
    { stripeEventId := some id, error := some msg }
    (fun _ => rfl) rfl evs
  refine ⟨_, h, ?_⟩
  cases hfe : findEvent evs id with
  | none => exact ⟨rfl, rfl⟩
  | some r => exact ⟨hunproc r hfe, rfl⟩

/-- Every type-specific handler only appends to the audit log, and every
appended row has `processed: false` (the schema default: no handler sets
the flag). -/
theorem dispatchEvent_events (now : Nat) (st : BillingState)
    (ev : StripeEvent) :
    ∃ extra, (dispatchEvent now st ev).2.events = st.events ++ extra ∧
      ∀ r ∈ extra, r.processed = false := by
  cases ev with
  | mk id data =>
      cases data with
      | checkoutCompleted s =>
          simp only [dispatchEvent, handleCheckoutCompleted]
          cases s.organizationIdMeta with
          | none => exact ⟨[], by simp, by simp⟩
          | some orgId =>
              cases s.planMeta with
              | none => exact ⟨[], by simp, by simp⟩
              | some plan =>
                  simp only
                  cases h : updateSeatCount now st.pc
                      (updateSubscription orgId
                        { plan := some plan, stripeSubscriptionId := s.subscription }
                        st.orgs) orgId (s.seatCountMeta.getD 1) with
                  | mk res rest =>
                      cases res with
                      | error e => exact ⟨[], by simp [h], by simp⟩
                      | ok u =>
                          simp only [h]
                          exact ⟨_, rfl, fun r hr => by
                            rcases List.mem_singleton.mp hr with rfl; rfl⟩
      | subscriptionCreated s =>
          simp only [dispatchEvent, handleSubscriptionUpdated]
          cases s.organizationIdMeta <;> exact ⟨[], by simp, by simp⟩
      | subscriptionUpdated s =>
          simp only [dispatchEvent, handleSubscriptionUpdated]
          cases s.organizationIdMeta <;> exact ⟨[], by simp, by simp⟩
      | subscriptionDeleted s =>
          simp only [dispatchEvent, handleSubscriptionDeleted]
          cases s.organizationIdMeta with
          | none => exact ⟨[], by simp, by simp⟩
          | some orgId =>
              exact ⟨_, rfl, fun r hr => by
                rcases List.mem_singleton.mp hr with rfl; rfl⟩
      | invoicePaid i =>
          simp only [dispatchEvent, handleInvoicePaid]
          cases findByStripeCustomerId i.customer st.orgs with
          | none => exact ⟨[], by simp, by simp⟩
          | some org =>
              exact ⟨_, rfl, fun r hr => by
                rcases List.mem_singleton.mp hr with rfl; rfl⟩
      | invoicePaymentFailed i =>
          simp only [dispatchEvent, handleInvoicePaymentFailed]
          cases findByStripeCustomerId i.customer st.orgs with
          | none => exact ⟨[], by simp, by simp⟩
          | some org =>
              exact ⟨_, rfl, fun r hr => by
                rcases List.mem_singleton.mp hr with rfl; rfl⟩
      | unrecognized t => exact ⟨[], by simp [dispatchEvent], by simp⟩

/- ### Claim theorems -/

/-- C8: for every plan whose corresponding max (`maxSeats` or
`maxCatalogItems`) is `-1` (unlimited), `canAddSeat` and
`canAddCatalogItem` return `true` for every value of the organization's
current counter. -/
theorem spec_C8 (now : Nat) (pc pc' : PlanCatalogState) (orgs : List Org)
    (orgId : String) (org : Org) (limits : PlanLimits)
    (ho : findOrg orgs orgId = some org)
    (hl : getPlanLimits now pc org.subscription.plan = (.ok limits, pc')) :
    (limits.maxSeats = -1 → canAddSeat now pc orgs orgId = (.ok true, pc')) ∧
    (limits.maxCatalogItems = -1 →
      canAddCatalogItem now pc orgs orgId = (.ok true, pc')) := by
  constructor
  · intro hm
    simp [canAddSeat, ho, hl, hm]
  · intro hm
    simp [canAddCatalogItem, ho, hl, hm]

/-- Witness for C8: the seeded `enterprise` plan has both maxima `-1`,
and both checks answer `true` at counters of one million. -/
theorem spec_C8_witness :
    canAddSeat 0 starterCatalog [orgEnterprise] "org_e" =
      (.ok true, seededRebuilt) ∧
    canAddCatalogItem 0 starterCatalog [orgEnterprise] "org_e" =
      (.ok true, seededRebuilt) := by
  have h := spec_C8 0 starterCatalog seededRebuilt [orgEnterprise] "org_e"
    orgEnterprise (toPlanLimits (seedDefaultsList.get ⟨3, by decide⟩))
    (by decide) (by decide)
  exact ⟨h.1 (by decide), h.2 (by decide)⟩

/-- C9: `decrementCatalogItemCount` applies the negative increment
unconditionally — a missing organization is a silent no-op (no existence
check, no error), and an existing organization's counter is decremented
with no plan-limit check and no floor at zero, so decrementing a zero
counter drives it negative. -/
theorem spec_C9 (orgs : List Org) (orgId : String) (count : Int) :
    (findOrg orgs orgId = none →
      decrementCatalogItemCount orgs orgId count = orgs) ∧
    (∀ org, findOrg orgs orgId = some org →
      findOrg (decrementCatalogItemCount orgs orgId count) orgId =
        some { org with subscription :=
          { org.subscription with catalogItemCount :=
            org.subscription.catalogItemCount - count } }) ∧
    (∀ org, findOrg orgs orgId = some org →
      org.subscription.catalogItemCount = 0 → 0 < count →
      ((findOrg (decrementCatalogItemCount orgs orgId count) orgId).map
          fun o => o.subscription.catalogItemCount) = some (-count) ∧
        -count < 0) := by
  have hfind := find?_setFirst (p := fun o : Org => o.id = orgId)
    (f := fun o =>
      { o with subscription :=
        { o.subscription with catalogItemCount :=
          o.subscription.catalogItemCount + (-count) } })
    (fun _ => rfl) orgs
  refine ⟨fun h => setFirst_of_find?_none h, ?_, ?_⟩
  · intro org h
    unfold decrementCatalogItemCount
    unfold findOrg at h ⊢
    rw [hfind, h]
    simp [sub_eq_add_neg]
  · intro org h hzero hpos
    unfold decrementCatalogItemCount
    unfold findOrg at h ⊢
    rw [hfind, h]
    simp [hzero]
    omega

/-- Witness for C9: decrementing the zero counter of `org_z` by 1 yields
`-1`, and decrementing a missing organization changes nothing. -/
theorem spec_C9_witness :
    decrementCatalogItemCount [orgZero] "nope" 1 = [orgZero] ∧
    ((findOrg (decrementCatalogItemCount [orgZero] "org_z" 1) "org_z").map
        fun o => o.subscription.catalogItemCount) = some (-1) := by
  constructor
  · exact (spec_C9 [orgZero] "nope" 1).1 (by decide)
  · exact ((spec_C9 [orgZero] "org_z" 1).2.2 orgZero (by decide) (by decide)
      (by decide)).1

/-- C4: for every plan with finite `maxCatalogItems` and organization on
it, `canAddCatalogItem` is `true` iff the current counter is strictly
below the max, and `incrementCatalogItemCount` fails with a
`PLAN_LIMIT_REACHED` / `catalog_items` domain error when
`current + delta` would exceed the max, leaving the stored collection
unchanged (the validation runs before the `$inc` write). -/
theorem spec_C4 (now : Nat) (pc pc' : PlanCatalogState) (orgs : List Org)
    (orgId : String) (org : Org) (limits : PlanLimits) (count : Int)
    (ho : findOrg orgs orgId = some org)
    (hl : getPlanLimits now pc org.subscription.plan = (.ok limits, pc'))
    (hNe : limits.maxCatalogItems ≠ -1) :
    canAddCatalogItem now pc orgs orgId =
      (.ok (decide (org.subscription.catalogItemCount < limits.maxCatalogItems)),
        pc') ∧
    (org.subscription.catalogItemCount + count > limits.maxCatalogItems →
      resultErrDetails (incrementCatalogItemCount now pc orgs orgId count).1 =
        some { code := "PLAN_LIMIT_REACHED", resource := "catalog_items" } ∧
      (incrementCatalogItemCount now pc orgs orgId count).2.2 = orgs) := by
  constructor
  · simp [canAddCatalogItem, ho, hl, hNe]
  · intro hover
    have hcond : limits.maxCatalogItems ≠ -1 ∧
        org.subscription.catalogItemCount + count > limits.maxCatalogItems :=
      ⟨hNe, hover⟩
    simp [incrementCatalogItemCount, validateCatalogItemCount, ho, hl, hcond,
      resultErrDetails, resultErr, AppError.badRequest]

/-- Witness for C4: the seeded `free` plan allows 10 catalog items; at a
counter of 10, `canAddCatalogItem` is `false` and incrementing by 1 fails
with `PLAN_LIMIT_REACHED` / `catalog_items`, leaving the collection
unchanged. -/
theorem spec_C4_witness :
    canAddCatalogItem 0 starterCatalog [orgFree10] "org_f" =
      (.ok false, seededRebuilt) ∧
    resultErrDetails
        (incrementCatalogItemCount 0 starterCatalog [orgFree10] "org_f" 1).1 =
      some { code := "PLAN_LIMIT_REACHED", resource := "catalog_items" } ∧
    (incrementCatalogItemCount 0 starterCatalog [orgFree10] "org_f" 1).2.2 =
      [orgFree10] := by
  have h := spec_C4 0 starterCatalog seededRebuilt [orgFree10] "org_f"
    orgFree10 (toPlanLimits (seedDefaultsList.get ⟨0, by decide⟩)) 1
    (by decide) (by decide) (by decide)
  exact ⟨h.1, (h.2 (by decide)).1, (h.2 (by decide)).2⟩

/-- C1 counterexample: on the seeded `starter` plan (maxSeats = 5,
`billingModel: "dynamic"`), an organization holding 5 seats can have its
seat count raised to 6 without any error — the update succeeds, so the
claimed `PLAN_LIMIT_REACHED` failure does not occur. -/
theorem spec_C1_counterexample :
    resultErr (updateSeatCount 0 starterCatalog [orgStarter5] "org_a" 6).1 =
      none ∧
    (updateSeatCount 0 starterCatalog [orgStarter5] "org_a" 6).2.2 =
      [{ orgStarter5 with subscription :=
          { orgStarter5.subscription with seatCount := 6 } }] := by
  constructor <;> decide

/-- C1 (amended): for an organization on the seeded starter plan
(maxSeats = 5) with seatCount = 5, the seat-quota check `canAddSeat`
returns `false`, but attempting to set the seat count past the limit
succeeds without a domain error, because `validateSeatCount` enforces
`maxSeats` only when the plan's billing model is `fixed` while the seeded
starter plan is `dynamic`; the `PLAN_LIMIT_REACHED` error with resource
`seats` is raised only for a fixed-billing plan (for example the seeded
`free` plan, or a fixed-billing variant of starter). -/
theorem spec_C1 :
    resultVal (canAddSeat 0 starterCatalog [orgStarter5] "org_a").1 =
      some false ∧
    resultErr (updateSeatCount 0 starterCatalog [orgStarter5] "org_a" 6).1 =
      none ∧
    resultErrDetails (validateSeatCount 0 starterCatalog "free" 2).1 =
      some { code := "PLAN_LIMIT_REACHED", resource := "seats" } ∧
    resultErrDetails
        (validateSeatCount 0
          { types := [{ (seedDefaultsList.get ⟨1, by decide⟩) with
              billingModel := .fixed }] }
          "starter" 6).1 =
      some { code := "PLAN_LIMIT_REACHED", resource := "seats" } := by
  refine ⟨by decide, by decide, by decide, by decide⟩

/-- C3: every plan-catalog mutation (`create`, `update`, `deactivate`)
drops the plan-limits cache, so a `getPlanLimits` read issued immediately
after the mutation — at any time, even within the five-minute freshness
window — reflects the mutation: updated field values after an update and
`NOT_FOUND` for a plan that was just deactivated (plan keys are pairwise
distinct, as the unique index on `plan` guarantees). -/
theorem spec_C3 :
    (∀ d s r s₁, subTypeCreate d s = (.ok r, s₁) →
      s₁.planLimitsCache = none) ∧
    (∀ plan u s d' s₁, subTypeUpdate plan u s = (.ok d', s₁) →
      s₁.planLimitsCache = none) ∧
    (∀ plan s s₁, subTypeDeactivate plan s = (.ok (), s₁) →
      s₁.planLimitsCache = none) ∧
    (∀ plan s s₁ now, subTypeDeactivate plan s = (.ok (), s₁) →
      (s.types.map (·.plan)).Nodup →
      resultErrCode (getPlanLimits now s₁ plan).1 = some "NOT_FOUND") ∧
    (∀ plan u s d' s₁ now, subTypeUpdate plan u s = (.ok d', s₁) →
      (s.types.map (·.plan)).Nodup → d'.status = .active →
      (getPlanLimits now s₁ plan).1 = .ok (toPlanLimits d')) := by
  have hplan_preserved : ∀ u x, (applySubTypeUpdate u x).plan = x.plan :=
    fun _ _ => rfl
  refine ⟨?_, ?_, ?_, ?_, ?_⟩
  · intro d s r s₁ h
    unfold subTypeCreate at h
    split at h
    · simp at h
    · simp only [Prod.mk.injEq] at h
      rw [← h.2]
      rfl
  · intro plan u s d' s₁ h
    unfold subTypeUpdate at h
    split at h
    · simp at h
    · simp only [Prod.mk.injEq] at h
      rw [← h.2]
      rfl
  · intro plan s s₁ h
    unfold subTypeDeactivate at h
    split at h
    · simp only [Prod.mk.injEq] at h
      rw [← h.2]
      rfl
    · simp at h
  · intro plan s s₁ now h hnd
    unfold subTypeDeactivate at h
    split at h
    · simp only [Prod.mk.injEq] at h
      rw [← h.2]
      have hnone : mapGet (lowerStr plan)
          (buildCache (setFirst (fun d => d.plan = lowerStr plan)
            (fun d => { d with status := .inactive }) s.types)) = none := by
        rw [mapGet_eq_none]
        intro e he
        rcases mem_buildCache.mp he with ⟨d, hd, hact, rfl⟩
        intro hk
        have hin := setFirst_deactivate_inactive (k := lowerStr plan)
          (l := s.types) hnd d hd hk
        rw [hin] at hact
        cases hact
      unfold getPlanLimits
      rw [getAllPlanLimits_of_none rfl]
      simp only [invalidateCache, hnone]
      rfl
    · simp at h
  · intro plan u s d' s₁ now h hnd hact
    unfold subTypeUpdate at h
    split at h
    · simp at h
    next d₀ hf =>
      simp only [Prod.mk.injEq, Except.ok.injEq] at h
      obtain ⟨hd', hs₁⟩ := h
      have hkey : d₀.plan = lowerStr plan := by
        have := List.find?_some hf
        simpa using this
      have hmem : applySubTypeUpdate u d₀ ∈
          setFirst (fun x => x.plan = lowerStr plan) (applySubTypeUpdate u)
            s.types :=
        mem_setFirst_of_find? hf
      have hkeys : ((setFirst (fun x => x.plan = lowerStr plan)
          (applySubTypeUpdate u) s.types).map (·.plan)).Nodup := by
        rw [map_setFirst (·.plan) (hplan_preserved u) s.types]
        exact hnd
      have hn := buildCache_keys_nodup hkeys
      have hmemCache : ((applySubTypeUpdate u d₀).plan,
          toPlanLimits (applySubTypeUpdate u d₀)) ∈
          buildCache (setFirst (fun x => x.plan = lowerStr plan)
            (applySubTypeUpdate u) s.types) :=
        mem_buildCache.mpr ⟨applySubTypeUpdate u d₀, hmem, hd' ▸ hact, rfl⟩
      have hget : mapGet (lowerStr plan)
          (buildCache (setFirst (fun x => x.plan = lowerStr plan)
            (applySubTypeUpdate u) s.types)) =
          some (toPlanLimits (applySubTypeUpdate u d₀)) := by
        have h0 := mapGet_of_nodup hn hmemCache
        rwa [hplan_preserved u d₀, hkey] at h0
      rw [← hs₁, ← hd']
      unfold getPlanLimits
      rw [getAllPlanLimits_of_none rfl]
      simp only [invalidateCache, hget]

/-- Witness for C3: on the seeded catalog, creating a plan drops the
cache; deactivating `starter` and reading it back at time 0 (inside the
freshness window) yields `NOT_FOUND`; updating `free` to 42 catalog items
and reading it back at time 0 yields the updated limits. -/
theorem spec_C3_witness :
    ((subTypeCreate
        { plan := "gold", displayName := "Gold", billingModel := .fixed,
          baseCost := 100, pricePerSeat := 0 }
        starterCatalog).2).planLimitsCache = none ∧
    resultErrCode
        (getPlanLimits 0 (subTypeDeactivate "starter" starterCatalog).2
          "starter").1 =
      some "NOT_FOUND" ∧
    (getPlanLimits 0
        (subTypeUpdate "free" { maxCatalogItems := some 42 }
          starterCatalog).2 "free").1 =
      .ok (toPlanLimits
        (applySubTypeUpdate { maxCatalogItems := some 42 }
          (seedDefaultsList.get ⟨0, by decide⟩))) := by
  refine ⟨?_, ?_, ?_⟩
  · exact spec_C3.1
      { plan := "gold", displayName := "Gold", billingModel := .fixed,
        baseCost := 100, pricePerSeat := 0 }
      starterCatalog
      { plan := "gold", displayName := "Gold", billingModel := .fixed,
        baseCost := 100, pricePerSeat := 0 }
      (subTypeCreate
        { plan := "gold", displayName := "Gold", billingModel := .fixed,
          baseCost := 100, pricePerSeat := 0 }
        starterCatalog).2 (by decide)
  · exact spec_C3.2.2.2.1 "starter" starterCatalog
      (subTypeDeactivate "starter" starterCatalog).2 0 (by decide) (by decide)
  · exact spec_C3.2.2.2.2 "free" { maxCatalogItems := some 42 }
      starterCatalog
      (applySubTypeUpdate { maxCatalogItems := some 42 }
        (seedDefaultsList.get ⟨0, by decide⟩))
      (subTypeUpdate "free" { maxCatalogItems := some 42 } starterCatalog).2
      0 (by decide) (by decide) (by decide)

/-- When the webhook body succeeds, the audit row keyed by the event id
ends up processed with the handling timestamp. -/
theorem runAndRecord_ok {now : Nat} {st : BillingState} {ev : StripeEvent}
    {st₁ : BillingState} (h : runAndRecord now st ev = (.ok (), st₁)) :
    ∃ row, findEvent st₁.events ev.id = some row ∧
      row.processed = true ∧ row.processedAt = some now := by
  unfold runAndRecord at h
  split at h
  next u st2 heq =>
      simp only [Prod.mk.injEq] at h
      rw [← h.2]
      exact findEvent_markProcessed now ev.id st2.events
  next e st2 heq => simp at h

/-- When the webhook body re-raises a handler error on a first delivery,
the audit row keyed by the event id ends up unprocessed and carries the
error message. -/
theorem runAndRecord_error {now : Nat} {st : BillingState} {ev : StripeEvent}
    {st₁ : BillingState} {e : AppError}
    (h : runAndRecord now st ev = (.error e, st₁))
    (hnone : findEvent st.events ev.id = none) :
    ∃ row, findEvent st₁.events ev.id = some row ∧
      row.processed = false ∧ row.error = some e.message := by
  unfold runAndRecord at h
  split at h
  next u st2 heq => simp at h
  next e' st2 heq =>
      simp only [Prod.mk.injEq, Except.error.injEq] at h
      obtain ⟨he, h2⟩ := h
      subst he
      rw [← h2]
      obtain ⟨extra, hex, hexproc⟩ := dispatchEvent_events now st ev
      rw [heq] at hex
      apply findEvent_recordEventError
      intro r hr
      have hmem := List.mem_of_find?_eq_some hr
      have hp := List.find?_some hr
      rw [hex] at hmem
      rcases List.mem_append.mp hmem with hmem1 | hmem2
      · exact absurd hp (by
          have := List.find?_eq_none.mp hnone r hmem1
          simpa using this)
      · exact hexproc r hmem2

/-- C2: after a first webhook delivery succeeds, the `BillingEvent` row
keyed by the event id has `processed = true`, and a second delivery of
the same event id returns success while changing nothing — the handler
is not invoked again and the processed flag stays `true`. -/
theorem spec_C2 (now1 now2 : Nat) (st st₁ : BillingState) (ev : StripeEvent)
    (h : handleWebhookEvent now1 st ev = (.ok (), st₁)) :
    handleWebhookEvent now2 st₁ ev = (.ok (), st₁) ∧
    (findEvent st₁.events ev.id).map (·.processed) = some true := by
  have hproc : (findEvent st₁.events ev.id).map (·.processed) = some true := by
    unfold handleWebhookEvent at h
    split at h
    next existing heq =>
        by_cases hp : existing.processed
        · rw [if_pos hp] at h
          simp only [Prod.mk.injEq] at h
          rw [← h.2, heq]
          simp [hp]
        · rw [if_neg hp] at h
          obtain ⟨row, hrow, hrp, -⟩ := runAndRecord_ok h
          simp [hrow, hrp]
    next heq =>
        obtain ⟨row, hrow, hrp, -⟩ := runAndRecord_ok h
        simp [hrow, hrp]
  refine ⟨?_, hproc⟩
  obtain ⟨row, hrow, hp⟩ : ∃ row, findEvent st₁.events ev.id = some row ∧
      row.processed = true := by
    cases hfe : findEvent st₁.events ev.id with
    | none => rw [hfe] at hproc; cases hproc
    | some r => rw [hfe] at hproc; exact ⟨r, rfl, by simpa using hproc⟩
  unfold handleWebhookEvent
  simp [hrow, hp]

/-- Witness for C2: delivering an unrecognized-type event to an empty
state succeeds and records the row; redelivering it at a later time
returns success with the state unchanged and the flag still `true`. -/
theorem spec_C2_witness :
    handleWebhookEvent 7 afterFirstDelivery evUnknown =
      (.ok (), afterFirstDelivery) ∧
    (findEvent afterFirstDelivery.events "evt_1").map (·.processed) =
      some true := by
  have h := spec_C2 5 7 emptyBilling afterFirstDelivery evUnknown (by decide)
  exact ⟨h.1, h.2⟩

/-- C5: on a first delivery of any webhook event (no existing audit row
for its id): if the type-specific handler succeeds, the `BillingEvent`
row keyed by the event id is stored with `processed = true` and a
`processedAt` timestamp; if the handler throws, the row is stored with
the error text and `processed = false` and the error is re-raised; in
either case a row for that event id exists afterwards. -/
theorem spec_C5 (now : Nat) (st : BillingState) (ev : StripeEvent)
    (hfirst : findEvent st.events ev.id = none) :
    ((handleWebhookEvent now st ev).1 = .ok () →
      ∃ row, findEvent (handleWebhookEvent now st ev).2.events ev.id =
          some row ∧ row.processed = true ∧ row.processedAt = some now) ∧
    (∀ e, (handleWebhookEvent now st ev).1 = .error e →
      ∃ row, findEvent (handleWebhookEvent now st ev).2.events ev.id =
          some row ∧ row.processed = false ∧ row.error = some e.message) ∧
    (findEvent (handleWebhookEvent now st ev).2.events ev.id).isSome := by
  have hbody : handleWebhookEvent now st ev = runAndRecord now st ev := by
    unfold handleWebhookEvent
    rw [hfirst]
  rw [hbody]
  cases hr : runAndRecord now st ev with
  | mk res st₁ =>
      cases res with
      | ok u =>
          cases u
          obtain ⟨row, hrow, hrp, hrt⟩ := runAndRecord_ok hr
          refine ⟨fun _ => ⟨row, by simpa using hrow, hrp, hrt⟩, ?_, ?_⟩
          · intro e he
            simp at he
          · simp only
            rw [hrow]
            rfl
      | error e =>
          obtain ⟨row, hrow, hrp, herr⟩ := runAndRecord_error hr hfirst
          refine ⟨fun hok => ?_, fun e' he' => ?_, ?_⟩
          · simp at hok
          · simp only [Except.error.injEq] at he'
            subst he'
            exact ⟨row, by simpa using hrow, hrp, herr⟩
          · simp only
            rw [hrow]
            rfl

/-- Witness for C5: an unrecognized event on the empty state takes the
success path (row processed at time 5), and an `invoice.paid` event whose
customer matches no organization takes the error path (row unprocessed,
carrying the handler's `NOT_FOUND` message). -/
theorem spec_C5_witness :
    (∃ row, findEvent (handleWebhookEvent 5 emptyBilling evUnknown).2.events
        "evt_1" = some row ∧ row.processed = true ∧
        row.processedAt = some 5) ∧
    (∃ row, findEvent
          (handleWebhookEvent 5 emptyBilling evOrphanInvoice).2.events
          "evt_2" = some row ∧ row.processed = false ∧
        row.error = some "Organization not found for Stripe customer") := by
  constructor
  · exact (spec_C5 5 emptyBilling evUnknown (by decide)).1 (by decide)
  · exact (spec_C5 5 emptyBilling evOrphanInvoice (by decide)).2.1
      (AppError.notFound "Organization not found for Stripe customer")
      (by decide)

/-- C6: handling a subscription-deleted webhook event (with an
organization id in its metadata) succeeds and sets the organization's
subscription plan to `"free"` while changing no other field: every
organization keeps its status, identity and all other subscription
fields (Stripe references, period dates, flag, counters), and the
targeted organization's plan becomes `"free"`. -/
theorem spec_C6 (st : BillingState) (sub : StripeSubscription)
    (orgId : String) (h : sub.organizationIdMeta = some orgId) :
    (handleSubscriptionDeleted st sub).1 = .ok () ∧
    (handleSubscriptionDeleted st sub).2.pc = st.pc ∧
    List.Forall₂ (fun o o' : Org =>
        o'.id = o.id ∧ o'.name = o.name ∧ o'.email = o.email ∧
        o'.status = o.status ∧
        o'.subscription.stripeCustomerId = o.subscription.stripeCustomerId ∧
        o'.subscription.stripeSubscriptionId =
          o.subscription.stripeSubscriptionId ∧
        o'.subscription.currentPeriodStart =
          o.subscription.currentPeriodStart ∧
        o'.subscription.currentPeriodEnd = o.subscription.currentPeriodEnd ∧
        o'.subscription.cancelAtPeriodEnd = o.subscription.cancelAtPeriodEnd ∧
        o'.subscription.seatCount = o.subscription.seatCount ∧
        o'.subscription.catalogItemCount = o.subscription.catalogItemCount ∧
        (o'.subscription.plan = o.subscription.plan ∨
          o'.subscription.plan = "free"))
      st.orgs (handleSubscriptionDeleted st sub).2.orgs ∧
    ((findOrg st.orgs orgId).isSome →
      ∃ o', findOrg (handleSubscriptionDeleted st sub).2.orgs orgId =
          some o' ∧ o'.subscription.plan = "free") := by
  have hred : handleSubscriptionDeleted st sub =
      (.ok (),
        { st with
          orgs := updateSubscription orgId { plan := some "free" } st.orgs
          events := st.events ++
            [{ organizationId := some orgId
               eventType := some "subscription_cancelled"
               stripeSubscriptionId := some sub.id }] }) := by
    unfold handleSubscriptionDeleted
    rw [h]
  rw [hred]
  dsimp only
  refine ⟨rfl, rfl, ?_, ?_⟩
  · have hbase := forall₂_setFirst (fun o : Org => o.id = orgId)
      (fun o => { o with subscription := applySubUpdate { plan := some "free" } o.subscription })
      st.orgs
    refine hbase.imp ?_
    intro a b hab
    rcases hab with rfl | ⟨-, rfl⟩
    · exact ⟨rfl, rfl, rfl, rfl, rfl, rfl, rfl, rfl, rfl, rfl, rfl,
        Or.inl rfl⟩
    · exact ⟨rfl, rfl, rfl, rfl, rfl, rfl, rfl, rfl, rfl, rfl, rfl,
        Or.inr rfl⟩
  · intro hsome
    obtain ⟨o, ho⟩ := Option.isSome_iff_exists.mp hsome
    have hfs := find?_setFirst (p := fun o : Org => o.id = orgId)
      (f := fun o => { o with subscription := applySubUpdate { plan := some "free" } o.subscription })
      (fun _ => rfl) st.orgs
    have hfind : findOrg
        (updateSubscription orgId { plan := some "free" } st.orgs) orgId =
        some { o with subscription := applySubUpdate { plan := some "free" } o.subscription } := by
      unfold updateSubscription findOrg
      unfold findOrg at ho
      rw [hfs, ho]
      rfl
    exact ⟨_, hfind, rfl⟩

/-- Witness for C6: deleting subscription `sub_9` of `org_b` downgrades
its plan to `free` and leaves status `active` and all other subscription
fields intact. -/
theorem spec_C6_witness :
    (handleSubscriptionDeleted { emptyBilling with orgs := [orgPro] }
        (StripeSubscription.mk "sub_9" (some "org_b") none none false
          "active")).1 = .ok () ∧
    (∃ o', findOrg (handleSubscriptionDeleted
          { emptyBilling with orgs := [orgPro] }
          (StripeSubscription.mk "sub_9" (some "org_b") none none false
            "active")).2.orgs "org_b" = some o' ∧
        o'.subscription.plan = "free") := by
  have h := spec_C6 { emptyBilling with orgs := [orgPro] }
    (StripeSubscription.mk "sub_9" (some "org_b") none none false "active")
    "org_b" rfl
  exact ⟨h.1, h.2.2.2 (by decide)⟩

/-- C7: for an organization with `status = active` whose stored
`currentPeriodEnd` is strictly in the past, the status-gate read
`isActiveOrganization` both reports suspended (`isActive = false`,
`status = "suspended"`) and persists `status = "suspended"` on the
organization record, so a subsequent unrelated read observes the
suspended status without any further event. -/
theorem spec_C7 (now : Int) (users : List User) (orgs : List Org)
    (userId : String) (user : User) (org : Org) (t : Int)
    (hu : users.find? (fun u => u.id = userId) = some user)
    (hrole : user.role = "owner")
    (ho : findOrg orgs user.organizationId = some org)
    (hstatus : org.status = .active)
    (hpe : org.subscription.currentPeriodEnd = some t)
    (ht : t < now) :
    isActiveOrganization now users orgs userId =
      (.ok { isActive := false, subscription := some org.subscription,
             status := "suspended" },
        setFirst (fun o => o.id = user.organizationId)
          (fun o => { o with status := .suspended }) orgs) ∧
    ∃ org', findOrg
        (isActiveOrganization now users orgs userId).2
        user.organizationId = some org' ∧
      org'.status = .suspended ∧ org'.subscription = org.subscription := by
  have hred : isActiveOrganization now users orgs userId =
      (.ok { isActive := false, subscription := some org.subscription,
             status := "suspended" },
        setFirst (fun o => o.id = user.organizationId)
          (fun o => { o with status := .suspended }) orgs) := by
    unfold isActiveOrganization
    rw [hu]
    dsimp only
    rw [if_neg (by simp [hrole]), ho]
    dsimp only
    rw [if_neg (by simp [hstatus]), hpe]
    dsimp only
    rw [if_pos ht]
  refine ⟨hred, ?_⟩
  rw [hred]
  dsimp only
  have hfs := find?_setFirst (p := fun o : Org => o.id = user.organizationId)
    (f := fun o => { o with status := .suspended }) (fun _ => rfl) orgs
  have hfind : List.find? (fun o : Org => o.id = user.organizationId)
      (setFirst (fun o : Org => o.id = user.organizationId)
        (fun o => { o with status := .suspended }) orgs) =
      some { org with status := .suspended } := by
    unfold findOrg at ho
    rw [hfs, ho]
    rfl
  exact ⟨{ org with status := .suspended }, hfind, rfl, rfl⟩

/-- Witness for C7: at time 200, the owner's organization `org_c` (period
end 100, status active) is reported suspended and the suspension is
persisted on the record. -/
theorem spec_C7_witness :
    isActiveOrganization 200 [ownerUser] [orgExpired] "user_1" =
      (.ok { isActive := false,
             subscription := some orgExpired.subscription,
             status := "suspended" },
        setFirst (fun o => o.id = "org_c")
          (fun o => { o with status := .suspended }) [orgExpired]) ∧
    ∃ org', findOrg (isActiveOrganization 200 [ownerUser] [orgExpired]
        "user_1").2 "org_c" = some org' ∧
      org'.status = .suspended ∧ org'.subscription = orgExpired.subscription := by
  have h := spec_C7 200 [ownerUser] [orgExpired] "user_1" ownerUser orgExpired
    100 (by decide) rfl (by decide) rfl rfl (by decide)
  exact ⟨h.1, h.2⟩

/-- C10: a `checkout.session.completed` event whose metadata is missing
`organizationId` or `plan`, delivered for the first time, is handled
without error and without mutating any organization, and the event is
still marked `processed = true` — the malformed checkout is silently
recorded as processed, with no error text, and not retried. -/
theorem spec_C10 (now : Nat) (st : BillingState) (ev : StripeEvent)
    (s : CheckoutSession) (hd : ev.data = .checkoutCompleted s)
    (hmeta : s.organizationIdMeta = none ∨ s.planMeta = none)
    (hfirst : findEvent st.events ev.id = none) :
    handleWebhookEvent now st ev =
      (.ok (), { st with events := markProcessed now ev.id st.events }) ∧
    ∃ row, findEvent (markProcessed now ev.id st.events) ev.id = some row ∧
      row.processed = true ∧ row.error = none ∧
      row.processedAt = some now := by
  have hguard : handleCheckoutCompleted now st s = (.ok (), st) := by
    unfold handleCheckoutCompleted
    rcases hmeta with hm | hm
    · rw [hm]
    · rw [hm]
      cases s.organizationIdMeta <;> rfl
  have hdisp : dispatchEvent now st ev = (.ok (), st) := by
    unfold dispatchEvent
    rw [hd]
    exact hguard
  constructor
  · unfold handleWebhookEvent
    rw [hfirst]
    unfold runAndRecord
    rw [hdisp]
  · have hch := @findEvent_upsertByEventId ev.id
      (fun r => { r with processed := true, processedAt := some now })
      { stripeEventId := some ev.id, processed := true, processedAt := some now }
      (fun _ => rfl) rfl st.events
    rw [hfirst] at hch
    unfold markProcessed
    exact ⟨_, hch, rfl, rfl, rfl⟩

/-- Witness for C10: the metadata-less checkout event `evt_3` on the
empty state is acknowledged with success and recorded processed with no
error text. -/
theorem spec_C10_witness :
    handleWebhookEvent 5 emptyBilling evBadCheckout =
      (.ok (), { emptyBilling with
                 events := markProcessed 5 "evt_3" emptyBilling.events }) ∧
    ∃ row, findEvent (markProcessed 5 "evt_3" emptyBilling.events) "evt_3" =
        some row ∧ row.processed = true ∧ row.error = none ∧
      row.processedAt = some 5 := by
  have h := spec_C10 5 emptyBilling evBadCheckout
    { id := "cs_1" } rfl (Or.inl rfl) (by decide)
  exact ⟨h.1, h.2⟩
